import Mathlib

/-!
# Verification of the YGKing-music-web helper scripts

A shallow embedding of the two standalone scripts of the repository:

* `check_cover.py` — iterates a fixed two-entry list of image URLs, issues a
  HEAD request to each, and prints one line per URL: the status code on
  success, the numeric code of an `HTTPError`, or the message of any other
  exception.
* `fetch_data.py` — builds a search URL from a hardcoded keyword
  (percent-encoded with `urllib.parse.quote`), issues one GET request,
  decodes the body as UTF-8, parses it as JSON and pretty-prints it with
  `json.dumps(indent=2, ensure_ascii=False)`; any exception is caught at the
  top level and printed as an `Error:` line.

Network responses are modelled by outcome oracles: the scripts are pure
functions of what each request returns (a status, an HTTP-level error, or an
arbitrary exception).  Strings handled byte- or codepoint-wise are modelled
as `List Nat`; Python-side strings that stay opaque (URLs, exception
messages) are Lean `String`s.
-/

/-! ## The Cover-Check utility (`check_cover.py`) -/

/-- The fixed URL list of `check_cover.py` (lines 3-6). -/
def urls : List String :=
  ["https://y.qq.com/music/photo_new/T062R300x300M000060P0rWL1eOJah.jpg",
   "https://y.qq.com/music/photo_new/T062R300x300M0000048JRIA3PGl5x.jpg"]

/-- A Python exception as raised inside the cover-check `try` body:
`urllib.error.HTTPError` (carrying its numeric `code` and a message), or any
other exception (carrying its `str(e)` message). -/
inductive PyExc : Type
  | httpError (code : Nat) (msg : String)
  | other (msg : String)
deriving DecidableEq

/-- Outcome of one HEAD request: `urlopen` either returns a response with an
integer `status`, or raises an exception. -/
abbrev HeadOutcome : Type := Except PyExc Nat

/-- The body of the `try` block in `check_cover.py` (lines 9-12): build the
request, open it, and format the success line from `response.status`.  A
raised exception propagates as `Except.error`. -/
def coverTryBody (url : String) (o : HeadOutcome) : Except PyExc String :=
  o.map fun s => url ++ ": " ++ Nat.repr s

/-- The line `check_cover.py` prints for a given URL and request outcome,
one case per branch of the `try`/`except` (lines 9-16). -/
def coverLine (url : String) : HeadOutcome → String
  | .ok s => url ++ ": " ++ Nat.repr s
  | .error (.httpError c _) => url ++ ": " ++ Nat.repr c
  | .error (.other m) => url ++ ": " ++ m

/-- One loop iteration of `check_cover.py`: run the `try` body, then the two
`except` clauses (`HTTPError` first, then `Exception`).  The result is
`.ok line` when the iteration finishes normally having printed `line`, and
`.error e` if an exception escaped the handlers. -/
def coverStep (url : String) (o : HeadOutcome) : Except PyExc String :=
  match coverTryBody url o with
  | .ok line => .ok line
  | .error (.httpError c _) => .ok (url ++ ": " ++ Nat.repr c)
  | .error (.other m) => .ok (url ++ ": " ++ m)

/-- The `for url in urls` loop over the (position, url) pairs still to
process: returns the lines printed in order, and the exception that ended
the script early, if any.  `net i` is the outcome of the HEAD request for
the `i`-th URL. -/
def coverRunFrom (net : Nat → HeadOutcome) : List (Nat × String) → List String × Option PyExc
  | [] => ([], none)
  | (i, u) :: rest =>
    match coverStep u (net i) with
    | .ok line =>
      let r := coverRunFrom net rest
      (line :: r.1, r.2)
    | .error e => ([], some e)

/-- A full run of `check_cover.py` under request oracle `net`. -/
def coverRun (net : Nat → HeadOutcome) : List String × Option PyExc :=
  coverRunFrom net urls.enum

/-- The lines `check_cover.py` prints, in order. -/
def checkCoverOutputs (net : Nat → HeadOutcome) : List String :=
  (coverRun net).1

/-- The process exit code of `check_cover.py`: 0 unless an exception escaped
to the interpreter. -/
def coverExitCode (net : Nat → HeadOutcome) : Nat :=
  match (coverRun net).2 with
  | none => 0
  | some _ => 1

/-! ## Text encodings

Python 3 text handling, modelled over `List Nat`: a `str` is a list of
Unicode codepoints, a `bytes` is a list of byte values.  `strCps` converts a
Lean string literal to its codepoint list. -/

/-- The codepoints of a string. -/
def strCps (s : String) : List Nat :=
  s.data.map Char.toNat

/-- A valid Unicode scalar value (what a Python `str` character that
`str.encode` accepts can be: below `0x110000` and not a surrogate). -/
def isValidCp (c : Nat) : Prop :=
  c < 0x110000 ∧ (c < 0xD800 ∨ 0xE000 ≤ c)

instance (c : Nat) : Decidable (isValidCp c) := by
  unfold isValidCp
  exact inferInstance

/-- UTF-8 encoding of one codepoint (the encoding `str.encode("utf-8")`
applies per character). -/
def utf8EncodeChar (c : Nat) : List Nat :=
  if c < 0x80 then [c]
  else if c < 0x800 then [0xC0 + c / 0x40, 0x80 + c % 0x40]
  else if c < 0x10000 then [0xE0 + c / 0x1000, 0x80 + c / 0x40 % 0x40, 0x80 + c % 0x40]
  else [0xF0 + c / 0x40000, 0x80 + c / 0x1000 % 0x40, 0x80 + c / 0x40 % 0x40, 0x80 + c % 0x40]

/-- UTF-8 encoding of a codepoint sequence (`str.encode("utf-8")`). -/
def utf8Encode (s : List Nat) : List Nat :=
  s.flatMap utf8EncodeChar

/-- A UTF-8 continuation byte. -/
def contByte (b : Nat) : Prop :=
  0x80 ≤ b ∧ b < 0xC0

instance (b : Nat) : Decidable (contByte b) := by
  unfold contByte
  exact inferInstance

/-- Decode one UTF-8 sequence: from its first byte `b0` and the remaining
input `t0`, the decoded codepoint and the rest of the input.  Strict:
truncated and overlong sequences, surrogates, codepoints above `0x10FFFF`
and stray bytes are rejected. -/
def utf8DecodeOne (b0 : Nat) (t0 : List Nat) : Option (Nat × List Nat) :=
  if b0 < 0x80 then some (b0, t0)
  else if b0 < 0xE0 then
    match t0 with
    | b1 :: t1 =>
      if 0xC2 ≤ b0 ∧ contByte b1 then some ((b0 - 0xC0) * 0x40 + (b1 - 0x80), t1) else none
    | [] => none
  else if b0 < 0xF0 then
    match t0 with
    | b1 :: b2 :: t2 =>
      if contByte b1 ∧ contByte b2 ∧
          0x800 ≤ (b0 - 0xE0) * 0x1000 + (b1 - 0x80) * 0x40 + (b2 - 0x80) ∧
          isValidCp ((b0 - 0xE0) * 0x1000 + (b1 - 0x80) * 0x40 + (b2 - 0x80)) then
        some ((b0 - 0xE0) * 0x1000 + (b1 - 0x80) * 0x40 + (b2 - 0x80), t2)
      else none
    | _ => none
  else if b0 < 0xF5 then
    match t0 with
    | b1 :: b2 :: b3 :: t3 =>
      if contByte b1 ∧ contByte b2 ∧ contByte b3 ∧
          0x10000 ≤ (b0 - 0xF0) * 0x40000 + (b1 - 0x80) * 0x1000 + (b2 - 0x80) * 0x40 + (b3 - 0x80) ∧
          (b0 - 0xF0) * 0x40000 + (b1 - 0x80) * 0x1000 + (b2 - 0x80) * 0x40 + (b3 - 0x80) < 0x110000 then
        some ((b0 - 0xF0) * 0x40000 + (b1 - 0x80) * 0x1000 + (b2 - 0x80) * 0x40 + (b3 - 0x80), t3)
      else none
    | _ => none
  else none

/-- Decoding loop: each step consumes at least one byte, so fuel equal to
the input length always suffices. -/
def utf8DecodeAux : Nat → List Nat → Option (List Nat)
  | _, [] => some []
  | 0, _ :: _ => none
  | fuel + 1, b0 :: t0 =>
    match utf8DecodeOne b0 t0 with
    | some (c, rest) => (utf8DecodeAux fuel rest).map fun r => c :: r
    | none => none

/-- Strict UTF-8 decoding (`bytes.decode("utf-8")`): returns `none` where
Python raises `UnicodeDecodeError`. -/
def utf8Decode (l : List Nat) : Option (List Nat) :=
  utf8DecodeAux l.length l

/-! ## Percent-encoding (`urllib.parse.quote` with its default `safe="/"`) -/

/-- The bytes `urllib.parse.quote` leaves unencoded: ASCII letters, digits,
`_ . - ~`, plus the default safe character `/`. -/
def quoteSafeByte (b : Nat) : Prop :=
  (0x41 ≤ b ∧ b ≤ 0x5A) ∨ (0x61 ≤ b ∧ b ≤ 0x7A) ∨ (0x30 ≤ b ∧ b ≤ 0x39) ∨
  b = 0x5F ∨ b = 0x2E ∨ b = 0x2D ∨ b = 0x7E ∨ b = 0x2F

instance (b : Nat) : Decidable (quoteSafeByte b) := by
  unfold quoteSafeByte
  exact inferInstance

/-- Uppercase hex digit, as `quote` emits in `%XX` escapes. -/
def hexUpper (n : Nat) : Nat :=
  if n < 10 then 0x30 + n else 0x41 + (n - 10)

/-- Percent-encoding of a single byte. -/
def percentEncodeByte (b : Nat) : List Nat :=
  if quoteSafeByte b then [b] else [0x25, hexUpper (b / 16), hexUpper (b % 16)]

/-- Percent-encoding of a byte sequence, as codepoints of the result
string. -/
def percentEncode (bs : List Nat) : List Nat :=
  bs.flatMap percentEncodeByte

/-- Value of one hex digit, either case. -/
def hexVal (c : Nat) : Option Nat :=
  if 0x30 ≤ c ∧ c ≤ 0x39 then some (c - 0x30)
  else if 0x41 ≤ c ∧ c ≤ 0x46 then some (c - 0x41 + 10)
  else if 0x61 ≤ c ∧ c ≤ 0x66 then some (c - 0x61 + 10)
  else none

/-- Decode one percent-encoded token: a `%XX` escape becomes the byte `XX`,
any other ASCII character stands for itself. -/
def percentDecodeOne (c : Nat) (t : List Nat) : Option (Nat × List Nat) :=
  if c = 0x25 then
    match t with
    | h1 :: h2 :: t2 =>
      match hexVal h1, hexVal h2 with
      | some v1, some v2 => some (v1 * 16 + v2, t2)
      | _, _ => none
    | _ => none
  else if c < 0x80 then some (c, t)
  else none

/-- Percent-decoding loop; fuel equal to the input length always
suffices. -/
def percentDecodeAux : Nat → List Nat → Option (List Nat)
  | _, [] => some []
  | 0, _ :: _ => none
  | fuel + 1, c :: t =>
    match percentDecodeOne c t with
    | some (b, rest) => (percentDecodeAux fuel rest).map fun r => b :: r
    | none => none

/-- Strict percent-decoding back to bytes. -/
def percentDecode (l : List Nat) : Option (List Nat) :=
  percentDecodeAux l.length l

/-- Model of `urllib.parse.quote(s)`: UTF-8 encode, then percent-encode
(`fetch_data.py` line 6). -/
def pyQuote (s : List Nat) : List Nat :=
  percentEncode (utf8Encode s)

/-- URL-decoding back to a codepoint sequence: percent-decode to bytes,
then strict UTF-8 decode. -/
def pyUnquote (t : List Nat) : Option (List Nat) :=
  (percentDecode t).bind utf8Decode

/-- The hardcoded keyword of `fetch_data.py` (line 5). -/
def keyword : String :=
  "传奇 (2023 JJ20世界巡回演唱会武汉站"

/-- The keyword as a codepoint sequence. -/
def keywordCps : List Nat :=
  strCps keyword

/-! ## JSON values (the `json` module)

`fetch_data.py` parses the response with `json.loads` and re-serializes it
with `json.dumps(data, indent=2, ensure_ascii=False)`. -/

/-- A parsed JSON value as `json.loads` produces it, with numbers modelled
as integers: the repository's API data uses only integer numbers, and
Python float formatting (shortest round-trip repr) is not modelled.
Objects keep their fields in insertion order, as Python dicts do. -/
inductive Json : Type
  | null
  | bool (b : Bool)
  | num (n : Int)
  | str (s : List Nat)
  | arr (xs : List Json)
  | obj (fields : List (List Nat × Json))

/-- JSON whitespace. -/
def isJsonWs (c : Nat) : Bool :=
  c == 0x20 || c == 0x09 || c == 0x0A || c == 0x0D

/-- Skip leading JSON whitespace. -/
def skipWs : List Nat → List Nat
  | [] => []
  | c :: t => if isJsonWs c then skipWs t else c :: t

/-- Four hex digits to their value. -/
def hex4 (a b c d : Nat) : Option Nat := do
  let va ← hexVal a
  let vb ← hexVal b
  let vc ← hexVal c
  let vd ← hexVal d
  pure (va * 0x1000 + vb * 0x100 + vc * 0x10 + vd)

/-- JSON string-body scan (Python's `py_scanstring`, `strict=True`), the
input starting just after the opening quote: returns the decoded content
and the input after the closing quote.  Escapes handled:
`\" \\ \/ \b \f \n \r \t \uXXXX`, with `\uXXXX` surrogate pairs combined
and lone surrogates kept; unescaped control characters are rejected.
Every step consumes at least one character, so fuel equal to the input
length always suffices. -/
def parseStrLoop : Nat → List Nat → Option (List Nat × List Nat)
  | 0, _ => none
  | _, [] => none
  | fuel + 1, c :: t =>
    if c = 0x22 then some ([], t)
    else if c = 0x5C then
      match t with
      | [] => none
      | e :: t2 =>
        if e = 0x22 then (parseStrLoop fuel t2).map fun p => (0x22 :: p.1, p.2)
        else if e = 0x5C then (parseStrLoop fuel t2).map fun p => (0x5C :: p.1, p.2)
        else if e = 0x2F then (parseStrLoop fuel t2).map fun p => (0x2F :: p.1, p.2)
        else if e = 0x62 then (parseStrLoop fuel t2).map fun p => (0x08 :: p.1, p.2)
        else if e = 0x66 then (parseStrLoop fuel t2).map fun p => (0x0C :: p.1, p.2)
        else if e = 0x6E then (parseStrLoop fuel t2).map fun p => (0x0A :: p.1, p.2)
        else if e = 0x72 then (parseStrLoop fuel t2).map fun p => (0x0D :: p.1, p.2)
        else if e = 0x74 then (parseStrLoop fuel t2).map fun p => (0x09 :: p.1, p.2)
        else if e = 0x75 then
          match t2 with
          | a :: b :: c2 :: d :: t3 =>
            match hex4 a b c2 d with
            | none => none
            | some h =>
              if 0xD800 ≤ h ∧ h < 0xDC00 then
                match t3 with
                | 0x5C :: 0x75 :: a2 :: b2 :: c3 :: d2 :: t4 =>
                  match hex4 a2 b2 c3 d2 with
                  | none => none
                  | some l =>
                    if 0xDC00 ≤ l ∧ l < 0xE000 then
                      (parseStrLoop fuel t4).map fun p =>
                        ((0x10000 + (h - 0xD800) * 0x400 + (l - 0xDC00)) :: p.1, p.2)
                    else (parseStrLoop fuel t3).map fun p => (h :: p.1, p.2)
                | _ => (parseStrLoop fuel t3).map fun p => (h :: p.1, p.2)
              else (parseStrLoop fuel t3).map fun p => (h :: p.1, p.2)
          | _ => none
        else none
    else if c < 0x20 then none
    else (parseStrLoop fuel t).map fun p => (c :: p.1, p.2)

/-- JSON string-body scan from just after the opening quote. -/
def parseStr (l : List Nat) : Option (List Nat × List Nat) :=
  parseStrLoop (l.length + 1) l

/-- Take the leading run of decimal digits. -/
def digitsTake : List Nat → List Nat × List Nat
  | [] => ([], [])
  | c :: t =>
    if 0x30 ≤ c ∧ c ≤ 0x39 then
      let p := digitsTake t
      (c :: p.1, p.2)
    else ([], c :: t)

/-- Decimal value of a digit run, accumulator style. -/
def digitsVal : List Nat → Nat → Nat
  | [], acc => acc
  | c :: t, acc => digitsVal t (acc * 10 + (c - 0x30))

/-- True when the next character would extend the number token into a float
(fraction or exponent); floats are outside the integer-only model. -/
def floatFollows : List Nat → Bool
  | c :: _ => c == 0x2E || c == 0x65 || c == 0x45
  | [] => false

/-- JSON unsigned-integer token: either a lone `0` or a nonzero digit
followed by digits (leading zeros are not part of the token, as in the
`json` number grammar). -/
def parseNat : List Nat → Option (Nat × List Nat)
  | [] => none
  | c :: t =>
    if c = 0x30 then
      if floatFollows t then none else some (0, t)
    else if 0x31 ≤ c ∧ c ≤ 0x39 then
      let p := digitsTake t
      if floatFollows p.2 then none else some (digitsVal p.1 (c - 0x30), p.2)
    else none

/-- Parser state: a value, the items of a partially read array, or the
fields of a partially read object. -/
inductive JTask : Type
  | val
  | arrItems (acc : List Json)
  | objItems (acc : List (List Nat × Json))

/-- Recursive-descent JSON reader (the `json` module's scanner).  Each task
expects its input to start at a non-space character; whitespace is skipped
after `[`, `{`, `,`, `:` and after values, as the Python scanner does.
Every recursive entry consumes at least one character, so fuel linear in
the input length always suffices. -/
def pJson : Nat → JTask → List Nat → Option (Json × List Nat)
  | 0, _, _ => none
  | fuel + 1, .val, input =>
    match input with
    | [] => none
    | c :: t =>
      if c = 0x22 then (parseStr t).map fun p => (.str p.1, p.2)
      else if c = 0x7B then
        match skipWs t with
        | 0x7D :: r => some (.obj [], r)
        | t1 => pJson fuel (.objItems []) t1
      else if c = 0x5B then
        match skipWs t with
        | 0x5D :: r => some (.arr [], r)
        | t1 => pJson fuel (.arrItems []) t1
      else if c = 0x74 then
        match t with
        | 0x72 :: 0x75 :: 0x65 :: r => some (.bool true, r)
        | _ => none
      else if c = 0x66 then
        match t with
        | 0x61 :: 0x6C :: 0x73 :: 0x65 :: r => some (.bool false, r)
        | _ => none
      else if c = 0x6E then
        match t with
        | 0x75 :: 0x6C :: 0x6C :: r => some (.null, r)
        | _ => none
      else if c = 0x2D then (parseNat t).map fun p => (.num (-(p.1 : Int)), p.2)
      else if 0x30 ≤ c ∧ c ≤ 0x39 then (parseNat (c :: t)).map fun p => (.num (p.1 : Int), p.2)
      else none
  | fuel + 1, .arrItems acc, input =>
    match pJson fuel .val input with
    | none => none
    | some (j, r) =>
      match skipWs r with
      | 0x5D :: r2 => some (.arr (acc ++ [j]), r2)
      | 0x2C :: r2 => pJson fuel (.arrItems (acc ++ [j])) (skipWs r2)
      | _ => none
  | fuel + 1, .objItems acc, input =>
    match input with
    | 0x22 :: t =>
      match parseStr t with
      | none => none
      | some (k, r) =>
        match skipWs r with
        | 0x3A :: r2 =>
          match pJson fuel .val (skipWs r2) with
          | none => none
          | some (v, r3) =>
            match skipWs r3 with
            | 0x7D :: r4 => some (.obj (acc ++ [(k, v)]), r4)
            | 0x2C :: r4 => pJson fuel (.objItems (acc ++ [(k, v)])) (skipWs r4)
            | _ => none
        | _ => none
    | _ => none

/-- Model of `json.loads`: one JSON document, surrounding whitespace allowed,
trailing data an error (`none` where Python raises `JSONDecodeError`). -/
def jsonLoads (text : List Nat) : Option Json :=
  match pJson (text.length + 1) .val (skipWs text) with
  | some (j, r) =>
    match skipWs r with
    | [] => some j
    | _ => none
  | none => none

/-- Decimal digits of a natural number, most significant first; fuel
`n + 1` always suffices. -/
def natDigitsAux : Nat → Nat → List Nat
  | 0, _ => []
  | f + 1, n => if n < 10 then [0x30 + n] else natDigitsAux f (n / 10) ++ [0x30 + n % 10]

/-- Python `str` of a nonnegative integer. -/
def natRepr (n : Nat) : List Nat :=
  natDigitsAux (n + 1) n

/-- Python `str` of an int: decimal digits with a `-` sign when negative. -/
def intRepr : Int → List Nat
  | .ofNat n => natRepr n
  | .negSucc n => 0x2D :: natRepr (n + 1)

/-- Lowercase hex digit, as `json.dumps` emits in `\u00XX` escapes. -/
def hexLower (n : Nat) : Nat :=
  if n < 10 then 0x30 + n else 0x61 + (n - 10)

/-- How `json.dumps(ensure_ascii=False)` renders one string character:
quote, backslash and control characters are escaped, everything else —
including non-ASCII — is kept literally. -/
def jsonEscapeChar (c : Nat) : List Nat :=
  if c = 0x22 then [0x5C, 0x22]
  else if c = 0x5C then [0x5C, 0x5C]
  else if c = 0x08 then [0x5C, 0x62]
  else if c = 0x09 then [0x5C, 0x74]
  else if c = 0x0A then [0x5C, 0x6E]
  else if c = 0x0C then [0x5C, 0x66]
  else if c = 0x0D then [0x5C, 0x72]
  else if c < 0x20 then [0x5C, 0x75, 0x30, 0x30, hexLower (c / 16), hexLower (c % 16)]
  else [c]

/-- A serialized JSON string literal. -/
def jsonDumpStr (s : List Nat) : List Nat :=
  0x22 :: (s.flatMap jsonEscapeChar ++ [0x22])

/-- A run of `n` spaces. -/
def spaces (n : Nat) : List Nat :=
  List.replicate n 0x20

/-! `json.dumps(indent=2, ensure_ascii=False)`: indented output, item
separator `,` + newline, key separator `: `, empty containers on one line.
`cur` is the current indentation width. -/

mutual

/-- Render one JSON value at indentation `cur`. -/
def dumpsVal (cur : Nat) : Json → List Nat
  | .null => [0x6E, 0x75, 0x6C, 0x6C]
  | .bool true => [0x74, 0x72, 0x75, 0x65]
  | .bool false => [0x66, 0x61, 0x6C, 0x73, 0x65]
  | .num n => intRepr n
  | .str s => jsonDumpStr s
  | .arr [] => [0x5B, 0x5D]
  | .arr (x :: xs) =>
    [0x5B, 0x0A] ++ dumpsItems (cur + 2) (x :: xs) ++ [0x0A] ++ spaces cur ++ [0x5D]
  | .obj [] => [0x7B, 0x7D]
  | .obj (f :: fs) =>
    [0x7B, 0x0A] ++ dumpsFields (cur + 2) (f :: fs) ++ [0x0A] ++ spaces cur ++ [0x7D]

def dumpsItems (cur : Nat) : List Json → List Nat
  | [] => []
  | [x] => spaces cur ++ dumpsVal cur x
  | x :: rest => spaces cur ++ dumpsVal cur x ++ [0x2C, 0x0A] ++ dumpsItems cur rest

def dumpsFields (cur : Nat) : List (List Nat × Json) → List Nat
  | [] => []
  | [(k, v)] => spaces cur ++ jsonDumpStr k ++ [0x3A, 0x20] ++ dumpsVal cur v
  | (k, v) :: rest =>
    spaces cur ++ jsonDumpStr k ++ [0x3A, 0x20] ++ dumpsVal cur v ++ [0x2C, 0x0A] ++
      dumpsFields cur rest

end

/-- Model of `json.dumps(j, indent=2, ensure_ascii=False)`. -/
def pythonDumps (j : Json) : List Nat :=
  dumpsVal 0 j

/-! ## The Search-Fetch utility (`fetch_data.py`) -/

/-- The search URL built by the f-string on line 6 of `fetch_data.py`. -/
def searchUrl : List Nat :=
  strCps "https://api.ygking.top/api/search?keyword=" ++ pyQuote keywordCps ++
    strCps "&type=song&num=1&page=1"

/-- Outcome of the single GET request: `urlopen` plus `response.read()`
either yield the raw body bytes, or raise an exception with message
`msg`. -/
inductive FetchOutcome : Type
  | ok (body : List Nat)
  | exc (msg : List Nat)

/-- Messages of the library-raised exceptions (`UnicodeDecodeError` from
`.decode("utf-8")`, `JSONDecodeError` from `json.loads`): the script only
ever prepends them to `Error: `, so they stay abstract as an oracle. -/
structure ErrMsgs : Type where
  decodeMsg : List Nat → List Nat
  parseMsg : List Nat → List Nat

/-- The `try` body of `fetch_data.py` (lines 9-11): request, UTF-8-decode
the body, JSON-parse it, then pretty-print-and-print — the last step
abstracted as `ds` (the script instantiates it with `json.dumps`, see
`scriptDumpsStep`).  `Except.error m` is an exception with message `m`
escaping the body before the print happened. -/
def fetchTryBody (em : ErrMsgs) (ds : Json → Except (List Nat) (List Nat))
    (o : FetchOutcome) : Except (List Nat) (List Nat) :=
  match o with
  | .exc m => .error m
  | .ok body =>
    match utf8Decode body with
    | none => .error (em.decodeMsg body)
    | some text =>
      match jsonLoads text with
      | none => .error (em.parseMsg text)
      | some j => ds j

/-- The codepoints of `Error: `. -/
def errorPrefix : List Nat :=
  strCps "Error: "

/-- A full run of `fetch_data.py`: the blocks printed in order (each
element one `print` call) and the exception escaping to the interpreter,
if any.  The `except Exception` handler (lines 12-13) catches every
exception the model can raise and prints `Error: <message>` instead. -/
def fetchRunGen (em : ErrMsgs) (ds : Json → Except (List Nat) (List Nat))
    (o : FetchOutcome) : List (List Nat) × Option (List Nat) :=
  match fetchTryBody em ds o with
  | .ok out => ([out], none)
  | .error m => ([errorPrefix ++ m], none)

/-- The blocks `fetch_data.py` prints, with the dumps-and-print step
generalized to `ds`. -/
def fetchOutputsGen (em : ErrMsgs) (ds : Json → Except (List Nat) (List Nat))
    (o : FetchOutcome) : List (List Nat) :=
  (fetchRunGen em ds o).1

/-- Exit code of the generalized script: 0 unless an exception escaped. -/
def fetchExitCodeGen (em : ErrMsgs) (ds : Json → Except (List Nat) (List Nat))
    (o : FetchOutcome) : Nat :=
  match (fetchRunGen em ds o).2 with
  | none => 0
  | some _ => 1

/-- The dumps-and-print step as `fetch_data.py` line 11 has it:
`print(json.dumps(data, indent=2, ensure_ascii=False))`, which never raises
on data produced by `json.loads`. -/
def scriptDumpsStep (j : Json) : Except (List Nat) (List Nat) :=
  .ok (pythonDumps j)

/-- The blocks `fetch_data.py` prints. -/
def fetchOutputs (em : ErrMsgs) (o : FetchOutcome) : List (List Nat) :=
  fetchOutputsGen em scriptDumpsStep o

/-- Exit code of `fetch_data.py`. -/
def fetchExitCode (em : ErrMsgs) (o : FetchOutcome) : Nat :=
  fetchExitCodeGen em scriptDumpsStep o

/-! ## Observation helpers for the claims -/

/-- Split at the first occurrence of `sep`: the part before it, and the
part after it when present. -/
def breakAt (sep : Nat) : List Nat → List Nat × Option (List Nat)
  | [] => ([], none)
  | c :: t =>
    if c = sep then ([], some t)
    else
      let p := breakAt sep t
      (c :: p.1, p.2)

/-- Split on every occurrence of `sep`. -/
def splitOnByte (sep : Nat) : List Nat → List (List Nat)
  | [] => [[]]
  | c :: t =>
    if c = sep then [] :: splitOnByte sep t
    else
      match splitOnByte sep t with
      | [] => [[c]]
      | g :: gs => (c :: g) :: gs

/-- The query parameters of a URL: the part after the first `?`, split on
`&`, each parameter split at its first `=`. -/
def urlQueryParams (url : List Nat) : List (List Nat × Option (List Nat)) :=
  match (breakAt 0x3F url).2 with
  | none => []
  | some q => (splitOnByte 0x26 q).map fun p => breakAt 0x3D p

/-- Whether `pat` occurs contiguously inside a list. -/
def hasSub (pat : List Nat) : List Nat → Bool
  | [] => pat.isEmpty
  | c :: t => pat.isPrefixOf (c :: t) || hasSub pat t

/-! ## Concrete test vectors -/

/-- The mocked response body `{"code":0,"data":{"song":"传奇"}}` (braces
written `\x7b`/`\x7d`). -/
def c6BodyText : List Nat :=
  strCps "\x7b\"code\":0,\"data\":\x7b\"song\":\"传奇\"\x7d\x7d"

/-- The mocked response body as UTF-8 bytes. -/
def c6Bytes : List Nat :=
  utf8Encode c6BodyText

/-- The JSON value `json.loads` produces from the mocked body. -/
def c6Json : Json :=
  .obj [(strCps "code", .num 0),
        (strCps "data", .obj [(strCps "song", .str (strCps "传奇"))])]

/-- The pretty-printed text `json.dumps(indent=2, ensure_ascii=False)`
produces for the mocked body. -/
def c6Expected : List Nat :=
  strCps "\x7b\n  \"code\": 0,\n  \"data\": \x7b\n    \"song\": \"传奇\"\n  \x7d\n\x7d"

/-- A message oracle standing for the `json` module's parse-error text. -/
def c7Msgs : ErrMsgs :=
  ⟨fun _ => [], fun _ => strCps "Expecting value"⟩

/-- A trivial message oracle. -/
def c10Msgs : ErrMsgs :=
  ⟨fun _ => [], fun _ => []⟩

/-- A pretty-print step that always raises, with message `boom`. -/
def c10Dumps : Json → Except (List Nat) (List Nat) :=
  fun _ => .error (strCps "boom")

/-! ## Theorems for the Cover-Check utility -/

/-- Each iteration of the cover-check loop completes normally and prints
exactly the branch-determined line: the handlers cover every exception. -/
theorem coverStep_eq (url : String) (o : HeadOutcome) :
    coverStep url o = .ok (coverLine url o) := by
  cases o with
  | ok s => rfl
  | error e => cases e <;> rfl

theorem coverRun_eq (net : Nat → HeadOutcome) :
    coverRun net = ([coverLine urls[0] (net 0), coverLine urls[1] (net 1)], none) := by
  simp [coverRun, urls, List.enum, coverRunFrom, coverStep_eq]

theorem checkCoverOutputs_eq (net : Nat → HeadOutcome) :
    checkCoverOutputs net = [coverLine urls[0] (net 0), coverLine urls[1] (net 1)] := by
  simp [checkCoverOutputs, coverRun_eq]

theorem checkCoverOutputs_getElem? (net : Nat → HeadOutcome) (i : Nat) :
    (checkCoverOutputs net)[i]? = (urls[i]?).map fun u => coverLine u (net i) := by
  match i with
  | 0 => simp [checkCoverOutputs_eq, urls]
  | 1 => simp [checkCoverOutputs_eq, urls]
  | n + 2 => simp [checkCoverOutputs_eq, urls]

/-- C1: for every URL in the fixed two-entry URL list, exactly one output
line is produced per URL, in list order, regardless of the outcome of that
URL's HEAD request: position `i` of the output is exactly the line for
position `i` of the URL list, under any request oracle. -/
theorem cover_one_line_per_url (net : Nat → HeadOutcome) (i : Nat) :
    urls.length = 2 ∧
    (checkCoverOutputs net).length = urls.length ∧
    (checkCoverOutputs net)[i]? = (urls[i]?).map fun u => coverLine u (net i) :=
  ⟨rfl, by simp [checkCoverOutputs_eq, urls], checkCoverOutputs_getElem? net i⟩

/-- C2: whenever the HEAD request for a URL succeeds, the line printed for
that URL is the URL followed by the response's status code; in particular a
200 response yields exactly `<url>: 200`. -/
theorem cover_success_status_line (net : Nat → HeadOutcome) (i : Nat) (u : String) (s : Nat)
    (hu : urls[i]? = some u) (hn : net i = .ok s) :
    (checkCoverOutputs net)[i]? = some (u ++ ": " ++ Nat.repr s) := by
  match i with
  | 0 =>
    simp only [urls] at hu
    simp only [List.getElem?_cons_zero, Option.some.injEq] at hu
    subst hu
    simp [checkCoverOutputs_eq, coverLine, hn, urls]
  | 1 =>
    simp only [urls] at hu
    simp only [List.getElem?_cons_succ, List.getElem?_cons_zero, Option.some.injEq] at hu
    subst hu
    simp [checkCoverOutputs_eq, coverLine, hn, urls]
  | n + 2 => simp [urls] at hu

theorem cover_success_status_line_witness :
    (checkCoverOutputs fun _ => Except.ok 200)[0]? =
      some "https://y.qq.com/music/photo_new/T062R300x300M000060P0rWL1eOJah.jpg: 200" := by
  have h := cover_success_status_line (fun _ => Except.ok 200) 0
    "https://y.qq.com/music/photo_new/T062R300x300M000060P0rWL1eOJah.jpg" 200 rfl rfl
  exact h.trans (by decide)

/-- C3: whenever the HEAD request for a URL raises an `HTTPError`, the line
printed for that URL is the URL followed by the numeric error code, and the
error's message plays no role; in particular a 404 error yields exactly
`<url>: 404`. -/
theorem cover_http_error_line (net : Nat → HeadOutcome) (i : Nat) (u m : String) (c : Nat)
    (hu : urls[i]? = some u) (hn : net i = .error (.httpError c m)) :
    (checkCoverOutputs net)[i]? = some (u ++ ": " ++ Nat.repr c) := by
  match i with
  | 0 =>
    simp only [urls] at hu
    simp only [List.getElem?_cons_zero, Option.some.injEq] at hu
    subst hu
    simp [checkCoverOutputs_eq, coverLine, hn, urls]
  | 1 =>
    simp only [urls] at hu
    simp only [List.getElem?_cons_succ, List.getElem?_cons_zero, Option.some.injEq] at hu
    subst hu
    simp [checkCoverOutputs_eq, coverLine, hn, urls]
  | n + 2 => simp [urls] at hu

theorem cover_http_error_line_witness :
    (checkCoverOutputs fun _ => Except.error (PyExc.httpError 404 "Not Found"))[0]? =
      some "https://y.qq.com/music/photo_new/T062R300x300M000060P0rWL1eOJah.jpg: 404" := by
  have h := cover_http_error_line (fun _ => Except.error (PyExc.httpError 404 "Not Found")) 0
    "https://y.qq.com/music/photo_new/T062R300x300M000060P0rWL1eOJah.jpg" "Not Found" 404 rfl rfl
  exact h.trans (by decide)

/-- C4: a non-HTTP failure with a non-empty message `m` on URL `i` prints
the line `<url>: m` (so the part after the URL is a non-empty error
description), and every other URL is still processed and printed according
to its own outcome: failures are isolated per URL. -/
theorem cover_failure_isolated (net : Nat → HeadOutcome) (i : Nat) (u m : String)
    (hu : urls[i]? = some u) (hn : net i = .error (.other m)) (hm : m ≠ "") :
    (checkCoverOutputs net)[i]? = some (u ++ ": " ++ m) ∧ m.length ≠ 0 ∧
    ∀ j, (checkCoverOutputs net)[j]? = (urls[j]?).map fun v => coverLine v (net j) := by
  refine ⟨?_, ?_, fun j => checkCoverOutputs_getElem? net j⟩
  · match i with
    | 0 =>
      simp only [urls] at hu
      simp only [List.getElem?_cons_zero, Option.some.injEq] at hu
      subst hu
      simp [checkCoverOutputs_eq, coverLine, hn, urls]
    | 1 =>
      simp only [urls] at hu
      simp only [List.getElem?_cons_succ, List.getElem?_cons_zero, Option.some.injEq] at hu
      subst hu
      simp [checkCoverOutputs_eq, coverLine, hn, urls]
    | n + 2 => simp [urls] at hu
  · intro h0
    apply hm
    have hd : m.data = [] := List.length_eq_zero.mp h0
    cases m with
    | mk data =>
      simp only [String.data] at hd
      subst hd
      rfl

theorem cover_failure_isolated_witness :
    (checkCoverOutputs fun _ => Except.error (PyExc.other "getaddrinfo failed"))[0]? =
      some "https://y.qq.com/music/photo_new/T062R300x300M000060P0rWL1eOJah.jpg: getaddrinfo failed" ∧
    (checkCoverOutputs fun _ => Except.error (PyExc.other "getaddrinfo failed"))[1]? =
      some "https://y.qq.com/music/photo_new/T062R300x300M0000048JRIA3PGl5x.jpg: getaddrinfo failed" := by
  have h := cover_failure_isolated (fun _ => Except.error (PyExc.other "getaddrinfo failed")) 0
    "https://y.qq.com/music/photo_new/T062R300x300M000060P0rWL1eOJah.jpg"
    "getaddrinfo failed" rfl rfl (by decide)
  exact ⟨h.1.trans (by decide), (h.2.2 1).trans (by decide)⟩

/-! ## Round-trip of the percent-encoding layer -/

theorem hexVal_hexUpper (v : Nat) (h : v < 16) : hexVal (hexUpper v) = some v := by
  unfold hexUpper hexVal
  by_cases h10 : v < 10
  · rw [if_pos h10, if_pos (by omega)]
    simp only [Option.some.injEq]
    omega
  · rw [if_neg h10, if_neg (by omega), if_pos (by omega)]
    simp only [Option.some.injEq]
    omega

theorem quoteSafe_ascii (b : Nat) (h : quoteSafeByte b) : b ≠ 0x25 ∧ b < 0x80 := by
  unfold quoteSafeByte at h
  omega

theorem percentEncode_cons (b : Nat) (t : List Nat) :
    percentEncode (b :: t) = percentEncodeByte b ++ percentEncode t := by
  simp [percentEncode]

theorem percentDecodeOne_safe (b : Nat) (h : quoteSafeByte b) (t : List Nat) :
    percentDecodeOne b t = some (b, t) := by
  have hns := quoteSafe_ascii b h
  unfold percentDecodeOne
  rw [if_neg hns.1, if_pos hns.2]

theorem percentDecodeOne_escape (b : Nat) (h : b < 256) (t : List Nat) :
    percentDecodeOne 0x25 (hexUpper (b / 16) :: hexUpper (b % 16) :: t) = some (b, t) := by
  simp only [percentDecodeOne,
    hexVal_hexUpper (b / 16) (by omega), hexVal_hexUpper (b % 16) (by omega)]
  have hv : b / 16 * 16 + b % 16 = b := by omega
  simp [hv]

theorem percentDecodeAux_percentEncode (bs : List Nat) (h : ∀ b ∈ bs, b < 256) :
    ∀ fuel, (percentEncode bs).length ≤ fuel →
      percentDecodeAux fuel (percentEncode bs) = some bs := by
  induction bs with
  | nil => intro fuel _; cases fuel <;> rfl
  | cons b t ih =>
    intro fuel hf
    have hb : b < 256 := h b (List.mem_cons_self ..)
    have ht : ∀ x ∈ t, x < 256 := fun x hx => h x (List.mem_cons_of_mem _ hx)
    rw [percentEncode_cons] at hf ⊢
    by_cases hs : quoteSafeByte b
    · rw [percentEncodeByte, if_pos hs] at hf ⊢
      simp only [List.cons_append, List.nil_append, List.length_cons] at hf ⊢
      cases fuel with
      | zero => omega
      | succ f =>
        simp only [percentDecodeAux, percentDecodeOne_safe b hs]
        rw [ih ht f (by omega)]
        rfl
    · rw [percentEncodeByte, if_neg hs] at hf ⊢
      simp only [List.cons_append, List.nil_append, List.length_cons] at hf ⊢
      cases fuel with
      | zero => omega
      | succ f =>
        simp only [percentDecodeAux, percentDecodeOne_escape b hb]
        rw [ih ht f (by omega)]
        rfl

theorem percentDecode_percentEncode (bs : List Nat) (h : ∀ b ∈ bs, b < 256) :
    percentDecode (percentEncode bs) = some bs := by
  unfold percentDecode
  exact percentDecodeAux_percentEncode bs h _ le_rfl

/-! ## Round-trip of the UTF-8 layer -/

theorem utf8EncodeChar_lt_256 (c : Nat) (h : isValidCp c) :
    ∀ b ∈ utf8EncodeChar c, b < 256 := by
  obtain ⟨hlt, _⟩ := h
  intro b hb
  unfold utf8EncodeChar at hb
  by_cases h1 : c < 0x80
  · rw [if_pos h1] at hb
    simp only [List.mem_singleton] at hb
    omega
  · by_cases h2 : c < 0x800
    · rw [if_neg h1, if_pos h2] at hb
      simp only [List.mem_cons, List.not_mem_nil, or_false] at hb
      rcases hb with rfl | rfl <;> omega
    · by_cases h3 : c < 0x10000
      · rw [if_neg h1, if_neg h2, if_pos h3] at hb
        simp only [List.mem_cons, List.not_mem_nil, or_false] at hb
        rcases hb with rfl | rfl | rfl <;> omega
      · rw [if_neg h1, if_neg h2, if_neg h3] at hb
        simp only [List.mem_cons, List.not_mem_nil, or_false] at hb
        rcases hb with rfl | rfl | rfl | rfl <;> omega

theorem utf8DecodeOne_ascii (c : Nat) (h : c < 0x80) (t : List Nat) :
    utf8DecodeOne c t = some (c, t) := by
  unfold utf8DecodeOne
  rw [if_pos h]

theorem utf8DecodeOne_two (c : Nat) (h1 : 0x80 ≤ c) (h2 : c < 0x800) (t : List Nat) :
    utf8DecodeOne (0xC0 + c / 0x40) ((0x80 + c % 0x40) :: t) = some (c, t) := by
  have hcont : 0xC2 ≤ 0xC0 + c / 0x40 ∧ contByte (0x80 + c % 0x40) :=
    ⟨by omega, by unfold contByte; omega⟩
  simp only [utf8DecodeOne, if_neg (by omega : ¬ 0xC0 + c / 0x40 < 0x80),
    if_pos (by omega : 0xC0 + c / 0x40 < 0xE0), if_pos hcont]
  have hv : (0xC0 + c / 0x40 - 0xC0) * 0x40 + (0x80 + c % 0x40 - 0x80) = c := by omega
  rw [hv]

theorem utf8DecodeOne_three (c : Nat) (h1 : 0x800 ≤ c) (h2 : c < 0x10000)
    (hs : c < 0xD800 ∨ 0xE000 ≤ c) (t : List Nat) :
    utf8DecodeOne (0xE0 + c / 0x1000)
      ((0x80 + c / 0x40 % 0x40) :: (0x80 + c % 0x40) :: t) = some (c, t) := by
  have hv : (0xE0 + c / 0x1000 - 0xE0) * 0x1000 +
      (0x80 + c / 0x40 % 0x40 - 0x80) * 0x40 + (0x80 + c % 0x40 - 0x80) = c := by omega
  have hcond : contByte (0x80 + c / 0x40 % 0x40) ∧ contByte (0x80 + c % 0x40) ∧
      0x800 ≤ (0xE0 + c / 0x1000 - 0xE0) * 0x1000 +
        (0x80 + c / 0x40 % 0x40 - 0x80) * 0x40 + (0x80 + c % 0x40 - 0x80) ∧
      isValidCp ((0xE0 + c / 0x1000 - 0xE0) * 0x1000 +
        (0x80 + c / 0x40 % 0x40 - 0x80) * 0x40 + (0x80 + c % 0x40 - 0x80)) := by
    refine ⟨by unfold contByte; omega, by unfold contByte; omega, by omega, ?_⟩
    rw [hv]
    unfold isValidCp
    omega
  simp only [utf8DecodeOne, if_neg (by omega : ¬ 0xE0 + c / 0x1000 < 0x80),
    if_neg (by omega : ¬ 0xE0 + c / 0x1000 < 0xE0),
    if_pos (by omega : 0xE0 + c / 0x1000 < 0xF0), if_pos hcond]
  rw [hv]

theorem utf8DecodeOne_four (c : Nat) (h1 : 0x10000 ≤ c) (h2 : c < 0x110000) (t : List Nat) :
    utf8DecodeOne (0xF0 + c / 0x40000)
      ((0x80 + c / 0x1000 % 0x40) :: (0x80 + c / 0x40 % 0x40) :: (0x80 + c % 0x40) :: t) =
      some (c, t) := by
  have hv : (0xF0 + c / 0x40000 - 0xF0) * 0x40000 +
      (0x80 + c / 0x1000 % 0x40 - 0x80) * 0x1000 +
      (0x80 + c / 0x40 % 0x40 - 0x80) * 0x40 + (0x80 + c % 0x40 - 0x80) = c := by omega
  have hcond : contByte (0x80 + c / 0x1000 % 0x40) ∧ contByte (0x80 + c / 0x40 % 0x40) ∧
      contByte (0x80 + c % 0x40) ∧
      0x10000 ≤ (0xF0 + c / 0x40000 - 0xF0) * 0x40000 +
        (0x80 + c / 0x1000 % 0x40 - 0x80) * 0x1000 +
        (0x80 + c / 0x40 % 0x40 - 0x80) * 0x40 + (0x80 + c % 0x40 - 0x80) ∧
      (0xF0 + c / 0x40000 - 0xF0) * 0x40000 +
        (0x80 + c / 0x1000 % 0x40 - 0x80) * 0x1000 +
        (0x80 + c / 0x40 % 0x40 - 0x80) * 0x40 + (0x80 + c % 0x40 - 0x80) < 0x110000 :=
    ⟨by unfold contByte; omega, by unfold contByte; omega, by unfold contByte; omega,
     by omega, by omega⟩
  simp only [utf8DecodeOne, if_neg (by omega : ¬ 0xF0 + c / 0x40000 < 0x80),
    if_neg (by omega : ¬ 0xF0 + c / 0x40000 < 0xE0),
    if_neg (by omega : ¬ 0xF0 + c / 0x40000 < 0xF0),
    if_pos (by omega : 0xF0 + c / 0x40000 < 0xF5), if_pos hcond]
  rw [hv]

theorem utf8Encode_cons (c : Nat) (t : List Nat) :
    utf8Encode (c :: t) = utf8EncodeChar c ++ utf8Encode t := by
  simp [utf8Encode]

theorem utf8DecodeAux_utf8Encode (s : List Nat) (h : ∀ c ∈ s, isValidCp c) :
    ∀ fuel, (utf8Encode s).length ≤ fuel → utf8DecodeAux fuel (utf8Encode s) = some s := by
  induction s with
  | nil => intro fuel _; cases fuel <;> rfl
  | cons c t ih =>
    intro fuel hf
    obtain ⟨hlt, hsur⟩ := h c (List.mem_cons_self ..)
    have ht := fun x hx => h x (List.mem_cons_of_mem c hx)
    rw [utf8Encode_cons] at hf ⊢
    by_cases h1 : c < 0x80
    · rw [utf8EncodeChar, if_pos h1] at hf ⊢
      simp only [List.cons_append, List.nil_append, List.length_cons] at hf ⊢
      cases fuel with
      | zero => omega
      | succ f =>
        simp only [utf8DecodeAux, utf8DecodeOne_ascii c h1]
        rw [ih ht f (by omega)]
        rfl
    · by_cases h2 : c < 0x800
      · rw [utf8EncodeChar, if_neg h1, if_pos h2] at hf ⊢
        simp only [List.cons_append, List.nil_append, List.length_cons] at hf ⊢
        cases fuel with
        | zero => omega
        | succ f =>
          simp only [utf8DecodeAux, utf8DecodeOne_two c (by omega) h2]
          rw [ih ht f (by omega)]
          rfl
      · by_cases h3 : c < 0x10000
        · rw [utf8EncodeChar, if_neg h1, if_neg h2, if_pos h3] at hf ⊢
          simp only [List.cons_append, List.nil_append, List.length_cons] at hf ⊢
          cases fuel with
          | zero => omega
          | succ f =>
            simp only [utf8DecodeAux, utf8DecodeOne_three c (by omega) h3 hsur]
            rw [ih ht f (by omega)]
            rfl
        · rw [utf8EncodeChar, if_neg h1, if_neg h2, if_neg h3] at hf ⊢
          simp only [List.cons_append, List.nil_append, List.length_cons] at hf ⊢
          cases fuel with
          | zero => omega
          | succ f =>
            simp only [utf8DecodeAux, utf8DecodeOne_four c (by omega) hlt]
            rw [ih ht f (by omega)]
            rfl

theorem utf8Decode_utf8Encode (s : List Nat) (h : ∀ c ∈ s, isValidCp c) :
    utf8Decode (utf8Encode s) = some s := by
  unfold utf8Decode
  exact utf8DecodeAux_utf8Encode s h _ le_rfl

theorem utf8Encode_lt_256 (s : List Nat) (h : ∀ c ∈ s, isValidCp c) :
    ∀ b ∈ utf8Encode s, b < 256 := by
  intro b hb
  rw [utf8Encode, List.mem_flatMap] at hb
  obtain ⟨c, hc, hbc⟩ := hb
  exact utf8EncodeChar_lt_256 c (h c hc) b hbc

/-- C5: percent-encoding with `urllib.parse.quote` round-trips: URL-decoding
the percent-encoded keyword (percent-unescaping to bytes, then UTF-8
decoding) yields the original keyword string exactly, for any sequence of
Unicode scalar values — in particular for the hardcoded keyword, as the
witness instantiates. -/
theorem quote_unquote_roundtrip (s : List Nat) (h : ∀ c ∈ s, isValidCp c) :
    pyUnquote (pyQuote s) = some s := by
  unfold pyQuote pyUnquote
  rw [percentDecode_percentEncode _ (utf8Encode_lt_256 s h)]
  simpa using utf8Decode_utf8Encode s h

theorem quote_unquote_roundtrip_witness :
    pyUnquote (pyQuote keywordCps) = some keywordCps :=
  quote_unquote_roundtrip keywordCps (by decide)

/-- C6: on the response body `{"code":0,"data":{"song":"传奇"}}` the utility
prints exactly one block: the indented re-serialization of the parsed
value, which is itself valid JSON (it parses back to the same value) and
contains the substring `传奇` literally, not escaped. -/
theorem fetch_pretty_print_unescaped (em : ErrMsgs) :
    fetchOutputs em (.ok c6Bytes) = [c6Expected] ∧
    jsonLoads c6BodyText = some c6Json ∧
    jsonLoads c6Expected = some c6Json ∧
    c6Expected = pythonDumps c6Json ∧
    hasSub (strCps "传奇") c6Expected = true := by
  refine ⟨?_, rfl, rfl, by decide, by decide⟩
  have h1 : utf8Decode c6Bytes = some c6BodyText := by decide
  have h2 : jsonLoads c6BodyText = some c6Json := rfl
  have h3 : pythonDumps c6Json = c6Expected := by decide
  simp only [fetchOutputs, fetchOutputsGen, fetchRunGen, fetchTryBody, h1, h2,
    scriptDumpsStep, h3]

/-- C7: whenever the response body UTF-8-decodes but is not valid JSON,
exactly one block is printed, the `Error: ` line carrying the parse-error
message, and the script still exits with code 0 — no exception escapes. -/
theorem fetch_malformed_error_line (em : ErrMsgs) (body text : List Nat)
    (hd : utf8Decode body = some text) (hp : jsonLoads text = none) :
    fetchOutputs em (.ok body) = [errorPrefix ++ em.parseMsg text] ∧
    fetchExitCode em (.ok body) = 0 := by
  constructor
  · simp only [fetchOutputs, fetchOutputsGen, fetchRunGen, fetchTryBody, hd, hp]
  · simp only [fetchExitCode, fetchExitCodeGen, fetchRunGen, fetchTryBody, hd, hp]

theorem fetch_malformed_error_line_witness :
    fetchOutputs c7Msgs (.ok (utf8Encode (strCps "oops"))) =
      [errorPrefix ++ strCps "Expecting value"] ∧
    fetchExitCode c7Msgs (.ok (utf8Encode (strCps "oops"))) = 0 := by
  have h := fetch_malformed_error_line c7Msgs (utf8Encode (strCps "oops")) (strCps "oops")
    (by decide) rfl
  exact ⟨h.1.trans (by decide), h.2⟩

/-- C8: both utilities exit with code 0 under every outcome of their
network calls and of the pretty-print step: the `except` handlers catch
every exception of the model, so none terminates the process. -/
theorem scripts_exit_zero (net : Nat → HeadOutcome) (em : ErrMsgs)
    (ds : Json → Except (List Nat) (List Nat)) (o : FetchOutcome) :
    coverExitCode net = 0 ∧ fetchExitCodeGen em ds o = 0 := by
  constructor
  · simp [coverExitCode, coverRun_eq]
  · cases h : fetchTryBody em ds o <;> simp [fetchExitCodeGen, fetchRunGen, h]

set_option maxRecDepth 40000 in
/-- C9: the query URL of `fetch_data.py` targets the fixed base URL
`https://api.ygking.top/api/search` and carries exactly the parameters
`keyword` (the percent-encoded keyword), `type=song`, and `num` and `page`
both the rendering of the integer 1, in that order. -/
theorem search_url_query_params :
    (breakAt 0x3F searchUrl).1 = strCps "https://api.ygking.top/api/search" ∧
    urlQueryParams searchUrl =
      [(strCps "keyword", some (pyQuote keywordCps)),
       (strCps "type", some (strCps "song")),
       (strCps "num", some (strCps "1")),
       (strCps "page", some (strCps "1"))] ∧
    strCps "1" = natRepr 1 := by
  decide

/-- C10: the top-level handler also covers the re-serialization and
printing step: under any pretty-print step `ds`, exactly one block is ever
printed (never both a JSON block and an `Error:` line), and if `ds` raises
on the parsed value the single block is the `Error: ` line carrying its
message. -/
theorem fetch_handler_covers_print (em : ErrMsgs)
    (ds : Json → Except (List Nat) (List Nat)) (o : FetchOutcome) :
    (fetchOutputsGen em ds o).length = 1 ∧
    ∀ body text j m, o = .ok body → utf8Decode body = some text →
      jsonLoads text = some j → ds j = .error m →
      fetchOutputsGen em ds o = [errorPrefix ++ m] := by
  constructor
  · cases h : fetchTryBody em ds o <;> simp [fetchOutputsGen, fetchRunGen, h]
  · intro body text j m ho hd hp hds
    subst ho
    simp only [fetchOutputsGen, fetchRunGen, fetchTryBody, hd, hp, hds]

theorem fetch_handler_covers_print_witness :
    fetchOutputsGen c10Msgs c10Dumps (.ok c6Bytes) = [errorPrefix ++ strCps "boom"] :=
  (fetch_handler_covers_print c10Msgs c10Dumps (.ok c6Bytes)).2
    c6Bytes c6BodyText c6Json (strCps "boom") rfl (by decide) rfl rfl
